import Mathlib

/-!
Shallow embedding of the two configuration artifacts of the repository:

* `webgui/app/router.js` — an Ember.js router map.  The call `Router.map`
  declares a tree of routes; each `this.route(name)` call adds a route whose
  URL segment defaults to `"/" ++ name`, and an options object may override
  the segment with an explicit `path` (as in `this.route('user',
  { path: '/:user_id' })`).  Nested callback functions declare child routes.

* `.gitlab-ci.yml` — a GitLab CI pipeline: a `stages` list and four jobs
  (`build:nightly`, `test_webgui`, `build_webgui`, `publish_webgui`), each a
  record of image, optional stage, optional cache, script command list,
  artifact paths, optional `only` branch restriction and optional
  environment.  GitLab semantics used below: a job without a `stage:` field
  belongs to the default stage `test`; stages run in the declared order; a
  job with `only: [b1, ...]` runs exactly on those branches.
-/

/-- A route declaration of the Ember router map: the route name, the optional
explicit `path` option, and the child routes declared in the nested
callback. -/
inductive Route where
  | mk (name : String) (path : Option String) (children : List Route)

/-- The route name (first argument of `this.route`). -/
def Route.name : Route → String
  | Route.mk n _ _ => n

/-- The explicit `path` option, when one is given. -/
def Route.path : Route → Option String
  | Route.mk _ p _ => p

/-- The child routes declared in the nested callback. -/
def Route.children : Route → List Route
  | Route.mk _ _ cs => cs

/-- The route table declared by `Router.map` in `webgui/app/router.js`:
`feed`, `users` (with the nested `user` route at path `/:user_id`),
`files`, `settings`. -/
def Router.map : List Route :=
  [ Route.mk "feed" none [],
    Route.mk "users" none [Route.mk "user" (some "/:user_id") []],
    Route.mk "files" none [],
    Route.mk "settings" none [] ]

/-- The URL segment a route contributes: the explicit `path` option when
present, otherwise `"/" ++ name` (Ember default). -/
def pathSeg (n : String) (p : Option String) : String :=
  match p with
  | some q => q
  | none => "/" ++ n

/-- The URL segment of a route. -/
def segOf : Route → String
  | Route.mk n p _ => pathSeg n p

mutual
/-- All full URL paths declared by a route and its descendants, prefixed by
the accumulated parent path, in declaration order. -/
def fullPathsOf (base : String) : Route → List String
  | Route.mk n p cs =>
      (base ++ pathSeg n p) :: fullPathsList (base ++ pathSeg n p) cs
/-- Full URL paths of a whole level of sibling routes. -/
def fullPathsList (base : String) : List Route → List String
  | [] => []
  | r :: rs => fullPathsOf base r ++ fullPathsList base rs
end

/-- Pairwise distinctness of a list of strings. -/
def nodupStrings : List String → Bool
  | [] => true
  | s :: ss => !(ss.contains s) && nodupStrings ss

mutual
/-- A route's descendants have pairwise-distinct URL segments at every
nesting level. -/
def routeChildrenUnique : Route → Bool
  | Route.mk _ _ cs => nodupStrings (cs.map segOf) && levelAll cs
/-- Every route of a level has descendants with pairwise-distinct URL
segments at every nesting level. -/
def levelAll : List Route → Bool
  | [] => true
  | r :: rs => routeChildrenUnique r && levelAll rs
end

/-- Sibling URL segments are pairwise distinct at every nesting level of the
given route forest. -/
def siblingPathsUnique (rs : List Route) : Bool :=
  nodupStrings (rs.map segOf) && levelAll rs

/-- The statements executed at module load of `webgui/app/router.js`:
extend `EmberRouter`, call `Router.map` once with the route declarations,
export the router. -/
inductive RouterStmt where
  | extendRouter
  | mapCall (routes : List Route)
  | exportDefault

/-- Whether a module statement is the `Router.map` call. -/
def isMapCall : RouterStmt → Bool
  | RouterStmt.mapCall _ => true
  | _ => false

/-- The top-level statements of `webgui/app/router.js`, in order. -/
def routerModule : List RouterStmt :=
  [RouterStmt.extendRouter, RouterStmt.mapCall Router.map,
   RouterStmt.exportDefault]

/-- The state of the router module: the route table, once defined. -/
structure RouterState where
  table : Option (List Route)

/-- Before the module runs, no route table is defined. -/
def initRouterState : RouterState := { table := none }

/-- Effect of one module statement on the router state: only the
`Router.map` call touches the route table. -/
def runStmt (s : RouterState) : RouterStmt → RouterState
  | RouterStmt.mapCall rs => { table := some rs }
  | _ => s

/-- The router state after the module has executed. -/
def runModule : RouterState := routerModule.foldl runStmt initRouterState

/-- A `cache:` declaration of a CI job: key and paths. -/
structure Cache where
  key : String
  paths : List String
deriving DecidableEq

/-- An `environment:` declaration of a CI job: name and URL. -/
structure EnvDecl where
  name : String
  url : String
deriving DecidableEq

/-- A GitLab CI job as declared in `.gitlab-ci.yml`.  Fields the file never
declares for any job (`retry`, `when`, `rules`, `allow_failure`) are kept so
that their absence is part of the embedding. -/
structure Job where
  name : String
  stage : Option String
  image : String
  cache : Option Cache
  script : List String
  artifacts : List String
  only : Option (List String)
  environment : Option EnvDecl
  retry : Option Nat
  when : Option String
  rules : Option (List String)
  allow_failure : Option Bool
deriving DecidableEq

/-- The `stages:` list of `.gitlab-ci.yml`. -/
def stages : List String := ["test", "build", "publish"]

/-- The `build:nightly` job: Rust build on the nightly image, no `stage:`
field. -/
def build_nightly : Job :=
  { name := "build:nightly"
    stage := none
    image := "rustlang/rust:nightly"
    cache := none
    script := ["cargo build"]
    artifacts := []
    only := none
    environment := none
    retry := none
    when := none
    rules := none
    allow_failure := none }

/-- The `test_webgui` job: runs the webgui test suite in the test stage. -/
def test_webgui : Job :=
  { name := "test_webgui"
    stage := some "test"
    image := "circleci/node:10-browsers"
    cache := some { key := "yarn", paths := ["webgui/.yarn"] }
    script := ["cd webgui",
               "yarn install --pure-lockfile --cache-folder .yarn",
               "yarn run test"]
    artifacts := []
    only := none
    environment := none
    retry := none
    when := none
    rules := none
    allow_failure := none }

/-- The `build_webgui` job: production build of the webgui, artifacts under
`webgui/dist/`. -/
def build_webgui : Job :=
  { name := "build_webgui"
    stage := some "build"
    image := "node:10"
    cache := some { key := "yarn", paths := ["webgui/.yarn"] }
    script := ["cd webgui",
               "yarn install --pure-lockfile --cache-folder .yarn",
               "yarn run build --prod"]
    artifacts := ["webgui/dist/"]
    only := none
    environment := none
    retry := none
    when := none
    rules := none
    allow_failure := none }

/-- The `publish_webgui` job: publishes `webgui/dist/` to surge, restricted
to the `master` branch. -/
def publish_webgui : Job :=
  { name := "publish_webgui"
    stage := some "publish"
    image := "andthensome/alpine-surge-bash"
    cache := none
    script := ["cd webgui/dist/",
               "cp index.html 200.html",
               "surge --project . --domain qaul.surge.sh"]
    artifacts := []
    only := some ["master"]
    environment := some { name := "master", url := "http://qaul.surge.sh/" }
    retry := none
    when := none
    rules := none
    allow_failure := none }

/-- All jobs of the pipeline, in file order. -/
def pipelineJobs : List Job :=
  [build_nightly, test_webgui, build_webgui, publish_webgui]

/-- GitLab semantics: the stage a job belongs to; a job with no `stage:`
field belongs to the default stage `test`. -/
def effectiveStage (j : Job) : String :=
  match j.stage with
  | some s => s
  | none => "test"

/-- Position of a string in a list (length of the list when absent). -/
def posIn (l : List String) (s : String) : Nat :=
  match l with
  | [] => 0
  | x :: xs => if x == s then 0 else posIn xs s + 1

/-- Position of a job's stage in the declared `stages` order. -/
def stagePos (j : Job) : Nat := posIn stages (effectiveStage j)

/-- GitLab semantics: whether a job runs on a given branch — always, unless
an `only:` list restricts it to the listed branches. -/
def jobRunsOn (j : Job) (branch : String) : Bool :=
  match j.only with
  | none => true
  | some bs => bs.contains branch

/-- GitLab semantics: the execution order of a pipeline run — jobs grouped
stage by stage in the declared stage order. -/
def pipelineTrace : List Job :=
  (stages.map fun s => pipelineJobs.filter fun j => effectiveStage j == s).flatten

/-- Whether consecutive jobs of a list have non-decreasing stage
positions. -/
def stageOrdered : List Job → Bool
  | [] => true
  | [_] => true
  | a :: b :: rest => decide (stagePos a ≤ stagePos b) && stageOrdered (b :: rest)

/-- Splits a character list into space-separated words; `acc` holds the
characters of the current word, reversed. -/
def splitWordsAux : List Char → List Char → List String
  | [], acc => [String.mk acc.reverse]
  | c :: cs, acc =>
    if c == ' ' then String.mk acc.reverse :: splitWordsAux cs []
    else splitWordsAux cs (c :: acc)

/-- Splits a shell command into space-separated words. -/
def splitWords (s : String) : List String := splitWordsAux s.data []

/-- Shell control-flow keywords: a command containing one of these as a word
is not a straight-line command. -/
def shellControlWords : List String :=
  ["if", "then", "else", "elif", "fi", "for", "while", "until", "do",
   "done", "case", "esac"]

/-- A straight-line shell command: no control-flow keyword among its words
and no command separator, background operator or pipe character. -/
def straightLineCmd (cmd : String) : Bool :=
  ((splitWords cmd).all fun w => !(shellControlWords.contains w)) &&
  (cmd.data.all fun ch => !(ch == ';' || ch == '&' || ch == '|'))

/-- State of the shell while the `publish_webgui` script runs: the current
directory, the file system as a path-to-content association list (first
match wins), and the file set uploaded by `surge`. -/
structure ShellState where
  cwd : String
  files : List (String × String)
  published : List (String × String)

/-- First-match lookup of a path in a file association list. -/
def lookupFile (fs : List (String × String)) (p : String) : Option String :=
  match fs with
  | [] => none
  | kv :: rest => if kv.1 == p then some kv.2 else lookupFile rest p

/-- The files whose path lies under the directory `d`. -/
def filesUnder (d : String) (fs : List (String × String)) : List (String × String) :=
  fs.filter fun kv => d.data.isPrefixOf kv.1.data

/-- Semantics of the shell commands the `publish_webgui` script uses:
`cd` appends to the current directory, `cp` copies a file's content to a new
path (a no-op when the source is missing, as the shell would fail), and
`surge` uploads every file under the current directory.  Any other command
leaves the state unchanged. -/
def runCmd (s : ShellState) (cmd : String) : ShellState :=
  match splitWords cmd with
  | ["cd", d] => { s with cwd := s.cwd ++ d }
  | ["cp", src, dst] =>
    match lookupFile s.files (s.cwd ++ src) with
    | some c => { s with files := (s.cwd ++ dst, c) :: s.files }
    | none => s
  | w :: _ => if w == "surge" then { s with published := filesUnder s.cwd s.files }
              else s
  | [] => s

/-- Runs a script, command by command. -/
def runScript (cmds : List String) (s : ShellState) : ShellState :=
  cmds.foldl runCmd s

/-- The shell state a job starts in: repository root, given files, nothing
published. -/
def initShell (fs : List (String × String)) : ShellState :=
  { cwd := "", files := fs, published := [] }

/-- The full URL paths declared by the router map, computed from the tree. -/
lemma fullPaths_router :
    fullPathsList "" Router.map =
      ["/feed", "/users", "/users/:user_id", "/files", "/settings"] := by
  simp [Router.map, fullPathsOf, fullPathsList, pathSeg]

/-- A filter that keeps every entry with key `k` preserves the first-match
lookup of `k`. -/
lemma lookupFile_filter (q : String × String → Bool) (k c : String)
    (fs : List (String × String))
    (himp : ∀ kv : String × String, kv.1 = k → q kv = true)
    (h : lookupFile fs k = some c) :
    lookupFile (fs.filter q) k = some c := by
  induction fs with
  | nil => simp [lookupFile] at h
  | cons kv rest ih =>
    simp only [lookupFile, List.filter_cons] at h ⊢
    by_cases hk : (kv.1 == k) = true
    · rw [if_pos hk] at h
      have hq : q kv = true := himp kv (by simpa using hk)
      simp [hq, lookupFile, hk, h]
    · rw [if_neg hk] at h
      by_cases hq : q kv = true
      · simp [hq, lookupFile, hk, ih h]
      · simp [hq, ih h]

/-- C1: the route table declared by `Router.map` contains exactly the
mappings `feed`, `users`, `users/:user_id`, `files` and `settings`: four
top-level routes, one child of `users` at the dynamic segment `/:user_id`,
and nothing else. -/
theorem C1_route_table :
    Router.map.map Route.name = ["feed", "users", "files", "settings"] ∧
    (Router.map.map fun r => r.children.map Route.name) = [[], ["user"], [], []] ∧
    (Router.map.map fun r => r.children.map Route.path) =
      [[], [some "/:user_id"], [], []] ∧
    (Router.map.map fun r => r.children.map fun ch => ch.children.length) =
      [[], [0], [], []] ∧
    fullPathsList "" Router.map =
      ["/feed", "/users", "/users/:user_id", "/files", "/settings"] :=
  ⟨by decide, by decide, by decide, by decide, fullPaths_router⟩

/-- C2: the stage list is exactly `test`, `build`, `publish`; every job
belongs to one of these stages; and the pipeline's execution order runs
every job, grouped stage by stage in the declared order. -/
theorem C2_stage_order :
    stages = ["test", "build", "publish"] ∧
    (pipelineJobs.all fun j => stages.contains (effectiveStage j)) = true ∧
    pipelineTrace.length = pipelineJobs.length ∧
    (pipelineJobs.all fun j => pipelineTrace.contains j) = true ∧
    stageOrdered pipelineTrace = true := by decide

/-- C3: on any branch other than `master` the `publish_webgui` job does not
run, and the run consists exactly of the test-stage and build-stage jobs. -/
theorem C3_publish_only_master (branch : String) (h : branch ≠ "master") :
    jobRunsOn publish_webgui branch = false ∧
    pipelineJobs.filter (fun j => jobRunsOn j branch) =
      [build_nightly, test_webgui, build_webgui] ∧
    ((pipelineJobs.filter fun j => jobRunsOn j branch).all fun j =>
      effectiveStage j == "test" || effectiveStage j == "build") = true := by
  have h1 : jobRunsOn build_nightly branch = true := rfl
  have h2 : jobRunsOn test_webgui branch = true := rfl
  have h3 : jobRunsOn build_webgui branch = true := rfl
  have h4 : jobRunsOn publish_webgui branch = false := by
    simp [jobRunsOn, publish_webgui, h]
  have hfil : pipelineJobs.filter (fun j => jobRunsOn j branch) =
      [build_nightly, test_webgui, build_webgui] := by
    simp [pipelineJobs, List.filter_cons, h1, h2, h3, h4]
  refine ⟨h4, hfil, ?_⟩
  rw [hfil]
  decide

/-- Witness for C3 at the concrete branch `develop`. -/
theorem C3_publish_only_master_witness :
    ("develop" : String) ≠ "master" ∧
    (jobRunsOn publish_webgui "develop" = false ∧
     pipelineJobs.filter (fun j => jobRunsOn j "develop") =
       [build_nightly, test_webgui, build_webgui] ∧
     ((pipelineJobs.filter fun j => jobRunsOn j "develop").all fun j =>
       effectiveStage j == "test" || effectiveStage j == "build") = true) :=
  ⟨by decide, C3_publish_only_master "develop" (by decide)⟩

/-- C4: in the declared route table every URL segment is unique among its
siblings at every nesting level; the four top-level segments are pairwise
distinct; the only nested segment is `/:user_id` under `users`;
`/users/:user_id` is not a top-level sibling of `/users`; and all full
paths are pairwise distinct. -/
theorem C4_sibling_paths_unique :
    siblingPathsUnique Router.map = true ∧
    nodupStrings (Router.map.map segOf) = true ∧
    (Router.map.map fun r => r.children.map segOf) = [[], ["/:user_id"], [], []] ∧
    (Router.map.map segOf).contains "/users/:user_id" = false ∧
    nodupStrings (fullPathsList "" Router.map) = true := by
  refine ⟨?_, by decide, by decide, by decide, ?_⟩
  · simp [Router.map, siblingPathsUnique, routeChildrenUnique, levelAll,
      nodupStrings, segOf, pathSeg]
  · rw [fullPaths_router]
    decide

/-- C5: `build_webgui` declares the artifact path `webgui/dist/`, some job
of an earlier stage than `publish_webgui` provides that artifact path, and
the `publish_webgui` script starts by changing into `webgui/dist/`. -/
theorem C5_build_artifacts_available :
    build_webgui.artifacts = ["webgui/dist/"] ∧
    (pipelineJobs.any fun j =>
      j.artifacts.contains "webgui/dist/" &&
      decide (stagePos j < stagePos publish_webgui)) = true ∧
    publish_webgui.script.head? = some "cd webgui/dist/" := by decide

/-- C6: every job's script is a straight-line list of shell commands — no
control-flow keyword, separator, background operator or pipe — and no job
declares a `retry`, `when`, `rules` or `allow_failure` field. -/
theorem C6_straight_line_pipeline :
    (pipelineJobs.all fun j =>
      j.script.all straightLineCmd &&
      (j.retry == none) && (j.when == none) &&
      (j.rules == none) && (j.allow_failure == none)) = true := by decide

/-- C7: the route table is set exactly once, by the single `Router.map`
call of the module, after which it holds the declared routes; every other
statement leaves the table unchanged. -/
theorem C7_route_table_immutable (s : RouterState) (st : RouterStmt)
    (h : isMapCall st = false) :
    (runStmt s st).table = s.table ∧
    (routerModule.filter isMapCall).length = 1 ∧
    runModule.table = some Router.map := by
  refine ⟨?_, rfl, rfl⟩
  cases st with
  | mapCall rs => simp [isMapCall] at h
  | extendRouter => rfl
  | exportDefault => rfl

/-- Witness for C7 at the concrete statement `exportDefault`. -/
theorem C7_route_table_immutable_witness :
    (runStmt initRouterState RouterStmt.exportDefault).table =
      initRouterState.table ∧
    (routerModule.filter isMapCall).length = 1 ∧
    runModule.table = some Router.map :=
  C7_route_table_immutable initRouterState RouterStmt.exportDefault rfl

/-- C8: `build:nightly` declares no `stage:` field, so it belongs to the
default stage `test`: it shares the first stage position with
`test_webgui` and precedes both `build_webgui` and `publish_webgui`. -/
theorem C8_build_nightly_default_stage :
    build_nightly.stage = none ∧
    effectiveStage build_nightly = "test" ∧
    stagePos build_nightly = stagePos test_webgui ∧
    stagePos build_nightly = 0 ∧
    stagePos build_nightly < stagePos build_webgui ∧
    stagePos build_nightly < stagePos publish_webgui := by decide

/-- C10: `test_webgui` and `build_webgui` declare the identical cache (key
`yarn`, path `webgui/.yarn`) and both run the same lockfile-exact install
command with the cache folder `.yarn`. -/
theorem C10_shared_yarn_cache :
    test_webgui.cache = build_webgui.cache ∧
    test_webgui.cache = some { key := "yarn", paths := ["webgui/.yarn"] } ∧
    test_webgui.script.contains
      "yarn install --pure-lockfile --cache-folder .yarn" = true ∧
    build_webgui.script.contains
      "yarn install --pure-lockfile --cache-folder .yarn" = true := by decide

/-- C9: for any file system in which `webgui/dist/index.html` holds content
`c`, running the `publish_webgui` script copies `index.html` to `200.html`
before invoking surge, so the published file set contains a `200.html` and
an `index.html` both with content `c`. -/
theorem C9_publish_copies_fallback (fs : List (String × String)) (c : String)
    (hidx : lookupFile fs "webgui/dist/index.html" = some c) :
    lookupFile (runScript publish_webgui.script (initShell fs)).published
      "webgui/dist/200.html" = some c ∧
    lookupFile (runScript publish_webgui.script (initShell fs)).published
      "webgui/dist/index.html" = some c := by
  have hs1 : runCmd (initShell fs) "cd webgui/dist/" =
      { cwd := "webgui/dist/", files := fs, published := [] } := rfl
  have key : runCmd { cwd := "webgui/dist/", files := fs, published := [] }
      "cp index.html 200.html" =
      (match lookupFile fs "webgui/dist/index.html" with
       | some c0 =>
         { cwd := "webgui/dist/",
           files := ("webgui/dist/200.html", c0) :: fs,
           published := ([] : List (String × String)) }
       | none => { cwd := "webgui/dist/", files := fs, published := [] }) := rfl
  simp only [hidx] at key
  have hfin : runScript publish_webgui.script (initShell fs) =
      { cwd := "webgui/dist/", files := ("webgui/dist/200.html", c) :: fs,
        published :=
          filesUnder "webgui/dist/" (("webgui/dist/200.html", c) :: fs) } := by
    show runCmd (runCmd (runCmd (initShell fs) "cd webgui/dist/")
        "cp index.html 200.html") "surge --project . --domain qaul.surge.sh" = _
    rw [hs1, key]
    rfl
  have hq200 : ("webgui/dist/".data.isPrefixOf "webgui/dist/200.html".data) = true := by
    decide
  have hne : (("webgui/dist/200.html" : String) == "webgui/dist/index.html") = false := by
    decide
  rw [hfin]
  constructor
  · simp [filesUnder, List.filter_cons, hq200, lookupFile]
  · simp only [filesUnder, List.filter_cons, hq200, if_true, lookupFile, hne,
      Bool.false_eq_true, if_false]
    exact lookupFile_filter _ _ c fs (fun kv hkv => by rw [hkv]; decide) hidx

/-- Witness for C9 at a one-file file system holding `index.html` with
content `spa`. -/
theorem C9_publish_copies_fallback_witness :
    lookupFile [("webgui/dist/index.html", "spa")] "webgui/dist/index.html" =
      some "spa" ∧
    (lookupFile (runScript publish_webgui.script
        (initShell [("webgui/dist/index.html", "spa")])).published
      "webgui/dist/200.html" = some "spa" ∧
     lookupFile (runScript publish_webgui.script
        (initShell [("webgui/dist/index.html", "spa")])).published
      "webgui/dist/index.html" = some "spa") :=
  ⟨by decide,
   C9_publish_copies_fallback [("webgui/dist/index.html", "spa")] "spa" (by decide)⟩
